import Mathlib

/-!
Verification of the Debately debate platform.

The development shallowly embeds the frontend API client
(frontend/src/api.ts) and the page component (frontend/app/page.tsx),
together with the argument verification and synthesis pipeline that the
backend exposes to them.  The backend implementation itself is not part of
the source tree, only its HTTP surface, database schema and design
documents are; the corresponding definitions below are therefore modelled
from the specification and are marked as such in their doc comments.
Timestamps are modelled as naturals, relevance scores as rationals.
-/

namespace Debately

/-- Side of an argument, pro or con in the TypeScript types and in the
database schema. -/
inductive Side where
  | pro
  | con
  deriving DecidableEq, Repr

/-- One timeline entry of a topic synthesis, period plus description. -/
structure TimelineItem where
  period : String
  description : String
  deriving DecidableEq, Repr

/-- An argument row, following the arguments table of the backend README and
the ArgumentResponse interface of frontend/src/api.ts.  A null key_urls
column is modelled as the empty list; votes remains optional because the
frontend type declares it as number, null or absent. -/
structure Argument where
  id : Nat
  topic_id : Nat
  side : Side
  title : String
  content : String
  sources : Option String
  author : String
  created_at : Nat
  validity_score : Option Int
  validity_reasoning : Option String
  validity_checked_at : Option Nat
  key_urls : List String
  votes : Option Int
  deriving DecidableEq, Repr

/-- A freshly created argument row: the validity record is empty and votes
start at the database default 0. -/
def freshArgument (id topicId : Nat) (side : Side) (title content : String)
    (sources : Option String) (author : String) (createdAt : Nat) : Argument :=
  { id := id
    topic_id := topicId
    side := side
    title := title
    content := content
    sources := sources
    author := author
    created_at := createdAt
    validity_score := none
    validity_reasoning := none
    validity_checked_at := none
    key_urls := []
    votes := some 0 }

/-- A JavaScript value as it can arise from parsing a response body with
response.json, extended with undefined, which property access produces.
Objects are association lists. -/
inductive JsValue where
  | undefined
  | null
  | bool (b : Bool)
  | num (n : Int)
  | str (s : String)
  | obj (fields : List (String × JsValue))

/-- JavaScript truthiness of a value. -/
def JsValue.truthy : JsValue → Bool
  | .undefined => false
  | .null => false
  | .bool b => b
  | .num n => n != 0
  | .str s => s != ""
  | .obj _ => true

/-- Property access v.k.  The result none models the TypeError that reading
a property of null or undefined raises; a missing property of an object and
any property of another primitive read as undefined. -/
def JsValue.getProp : JsValue → String → Option JsValue
  | .undefined, _ => none
  | .null, _ => none
  | .obj fields, k => some ((fields.lookup k).getD .undefined)
  | _, _ => some .undefined

/-- The JavaScript operator a || b: the left operand when truthy, otherwise
the right one. -/
def jsOr (a b : JsValue) : JsValue := if a.truthy then a else b

/-- String coercion as performed by the Error constructor on its message
argument. -/
def JsValue.toDisplayString : JsValue → String
  | .undefined => "undefined"
  | .null => "null"
  | .bool b => if b then "true" else "false"
  | .num n => toString n
  | .str s => s
  | .obj _ => "[object Object]"

/-- The part of a fetch Response that handleResponse inspects.  The body
field is the parsed JSON body; none means the body is not valid JSON, so
that response.json rejects. -/
structure HttpResponse where
  ok : Bool
  status : Nat
  statusText : String
  body : Option JsValue

/-- The enriched error object that handleResponse in frontend/src/api.ts
builds: an Error with the computed message, the response status and the
extracted detail attached. -/
structure ApiError where
  message : String
  status : Nat
  detail : JsValue

/-- The possible outcomes of the failure path of handleResponse: the
constructed error object, a TypeError from reading a property of a null
body, or the rejection of response.json on an ok response whose body is not
valid JSON. -/
inductive JsFailure where
  | apiError (e : ApiError)
  | typeError
  | jsonParseError

/-- The errorMessage computation of handleResponse (frontend/src/api.ts,
line 96): a string detail is used as is, otherwise detail.message, then
detail.error, then the HTTP status fallback, joined by the JavaScript or
operator and coerced by the Error constructor. -/
def errorMessageOf (detail : JsValue) (status : Nat) : String :=
  match detail with
  | .str s => s
  | _ =>
    (jsOr ((detail.getProp "message").getD .undefined)
      (jsOr ((detail.getProp "error").getD .undefined)
        (.str ("HTTP error! status: " ++ toString status)))).toDisplayString

/-- The detail value that handleResponse extracts from a response:
errorData.detail || errorData, where errorData is the parsed body with the
statusText object as fallback.  The null result stands for the branch where
property access raises. -/
def extractedDetail (r : HttpResponse) : JsValue :=
  let errorData := r.body.getD (.obj [("detail", .str r.statusText)])
  match errorData.getProp "detail" with
  | none => .null
  | some d => jsOr d errorData

/-- Shallow embedding of handleResponse (frontend/src/api.ts, lines 91 to
104).  On an ok response it returns the parsed JSON body.  Otherwise it
parses the body, falling back to an object carrying statusText as detail
when parsing fails, extracts the detail, computes the error message and
throws an error carrying message, status and detail. -/
def handleResponse (r : HttpResponse) : Except JsFailure JsValue :=
  if r.ok then
    match r.body with
    | some v => .ok v
    | none => .error .jsonParseError
  else
    let errorData := r.body.getD (.obj [("detail", .str r.statusText)])
    match errorData.getProp "detail" with
    | none => .error .typeError
    | some d =>
      let detail := jsOr d errorData
      .error (.apiError
        { message := errorMessageOf detail r.status
          status := r.status
          detail := detail })

/-- The topic detail payload rendered by the page component, following
TopicDetailResponse of frontend/src/api.ts. -/
structure TopicDetail where
  id : Nat
  question : String
  pro_arguments : List Argument
  con_arguments : List Argument
  overall_summary : Option String
  consensus_view : Option String
  timeline_view : Option (List TimelineItem)
  deriving DecidableEq, Repr

/-- The two vote endpoints of the API client. -/
inductive VoteType where
  | upvote
  | downvote
  deriving DecidableEq, Repr

/-- The expression arg.votes || 0 of the page component: a missing or null
vote count reads as 0 (and the JavaScript or operator sends an actual 0 to
0 as well). -/
def jsVoteCount (votes : Option Int) : Int :=
  match votes with
  | none => 0
  | some n => if n = 0 then 0 else n

/-- The vote count shown for an argument card (const voteCount of
frontend/app/page.tsx). -/
def displayedVotes (a : Argument) : Int := jsVoteCount a.votes

/-- The optimistic update of handleVote (frontend/app/page.tsx): the clicked
argument gets its displayed count plus one on an upvote, minus one on a
downvote. -/
def applyOptimistic (voteType : VoteType) (a : Argument) : Argument :=
  { a with votes := some (match voteType with
      | .upvote => jsVoteCount a.votes + 1
      | .downvote => jsVoteCount a.votes - 1) }

/-- The revert performed in the catch branch of handleVote: the opposite
adjustment of the optimistic one, computed from the current votes field. -/
def applyRevert (voteType : VoteType) (a : Argument) : Argument :=
  { a with votes := some (match voteType with
      | .upvote => jsVoteCount a.votes - 1
      | .downvote => jsVoteCount a.votes + 1) }

/-- Rewriting the first argument whose id matches, as the mutation through
allArgs.find does on the concatenated argument arrays. -/
def updateFirstById (l : List Argument) (argumentId : Nat) (f : Argument → Argument) :
    List Argument :=
  match l with
  | [] => []
  | a :: rest =>
    if a.id = argumentId then f a :: rest else a :: updateFirstById rest argumentId f

/-- One pass of handleVote over the topic state: allArgs is the
concatenation of the pro and con arrays, and the first argument with the
given id is rewritten, so a pro argument shadows a con argument with the
same id. -/
def updateVoteState (t : TopicDetail) (argumentId : Nat) (f : Argument → Argument) :
    TopicDetail :=
  if t.pro_arguments.any (fun a => a.id == argumentId) then
    { t with pro_arguments := updateFirstById t.pro_arguments argumentId f }
  else
    { t with con_arguments := updateFirstById t.con_arguments argumentId f }

/-- The failure path of handleVote (frontend/app/page.tsx, lines 338 to
388): the optimistic update runs first, the awaited vote call fails, and the
catch branch applies the reverting adjustment to the same argument. -/
def handleVoteFailure (t : TopicDetail) (argumentId : Nat) (voteType : VoteType) :
    TopicDetail :=
  updateVoteState (updateVoteState t argumentId (applyOptimistic voteType))
    argumentId (applyRevert voteType)

/-- The reasoning string the rejection modal shows, from handleAddArgument
(frontend/app/page.tsx, line 309): errorData.reasoning with a fixed fallback
joined by the JavaScript or operator, so an absent or empty string falls
back to the fixed text. -/
def rejectionReasoningShown (detailReasoning : Option String) : String :=
  match detailReasoning with
  | some s =>
    if s = "" then
      "The argument contains no verifiable factual claims related to the debate topic."
    else s
  | none =>
    "The argument contains no verifiable factual claims related to the debate topic."

/-- Modelled from the spec: the RelevanceVerdict returned by the Relevance
Filter (the filter itself lives in the backend, which is not in the source
tree). -/
structure RelevanceVerdict where
  accepted : Bool
  reasoning : String
  deriving DecidableEq, Repr

/-- Modelled from the spec: the persistence step of the argument submission
route (backend code not in the source tree).  On accepted = false the
argument is rejected before persistence, the reasoning is surfaced in the
error, and no Argument row is created; on accepted = true the row is
inserted. -/
def handleAddArgumentServer (store : List Argument) (verdict : RelevanceVerdict)
    (a : Argument) : List Argument × Except String Nat :=
  if verdict.accepted then (a :: store, .ok a.id)
  else (store, .error verdict.reasoning)

/-- Modelled from the spec: the atomic increment or decrement that a vote
endpoint applies to the votes counter of one argument row. -/
def incrementVotes (votes : Int) (voteType : VoteType) : Int :=
  match voteType with
  | .upvote => votes + 1
  | .downvote => votes - 1

/-- A serialized sequence of vote operations applied to one counter; any
interleaving of concurrent atomic adds is some such sequence. -/
def applyVoteSequence (votes : Int) (ops : List VoteType) : Int :=
  ops.foldl incrementVotes votes

/-- One evidence search result: url, snippet and a relevance score, modelled
as a rational in the unit interval. -/
structure EvidenceSource where
  url : String
  snippet : String
  relevance : ℚ
  deriving DecidableEq, Repr

/-- Modelled from the spec: the Fact-Checker discards every search result
whose relevance score is at most one half. -/
def filterByRelevance (results : List EvidenceSource) : List EvidenceSource :=
  results.filter (fun s => decide (mkRat 1 2 < s.relevance))

/-- Modelled from the spec: surviving sources ordered by descending
relevance. -/
def sortByRelevanceDesc (results : List EvidenceSource) : List EvidenceSource :=
  results.insertionSort (fun a b => b.relevance ≤ a.relevance)

/-- Modelled from the spec: key_urls collection of the scoring stage, up to
5 urls, deduplicated by domain, in source order (descending relevance).  The
domain map is a parameter of the model. -/
def collectKeyUrls (domain : String → String) (results : List EvidenceSource) :
    List String :=
  results.foldl
    (fun acc s =>
      if acc.length < 5 && acc.all (fun u => domain u != domain s.url) then
        acc ++ [s.url]
      else acc)
    []

/-- The ValidityVerdict payload, following ValidityVerdictResponse of
frontend/src/api.ts. -/
structure ValidityVerdict where
  validity_score : Int
  reasoning : String
  key_urls : List String
  source_count : Nat
  deriving DecidableEq, Repr

/-- Modelled from the spec: the scoring stage of the Fact-Checker.  The raw
score comes from the Reasoning Client; a value outside 1 to 5 is malformed
model output, so the verification fails and no verdict is produced. -/
def scoreVerdict (domain : String → String) (rawScore : Int) (reasoning : String)
    (searchResults : List EvidenceSource) : Option ValidityVerdict :=
  let surviving := sortByRelevanceDesc (filterByRelevance searchResults)
  if 1 ≤ rawScore ∧ rawScore ≤ 5 then
    some { validity_score := rawScore
           reasoning := reasoning
           key_urls := collectKeyUrls domain surviving
           source_count := surviving.length }
  else none

/-- Modelled from the spec: updateValidityRecord of the storage collaborator
writes the verdict into the argument row, with validity_checked_at set to
the call time, atomically replacing any prior record. -/
def updateValidityRecord (a : Argument) (v : ValidityVerdict) (checkedAt : Nat) :
    Argument :=
  { a with
    validity_score := some v.validity_score
    validity_reasoning := some v.reasoning
    validity_checked_at := some checkedAt
    key_urls := v.key_urls }

/-- The validity record invariant stated for the data model, relative to a
domain map: the score is null or between 1 and 5, at most 5 key urls, and no
two key urls share a domain. -/
def validityRecordInvariant (domain : String → String) (a : Argument) : Prop :=
  (∀ s, a.validity_score = some s → 1 ≤ s ∧ s ≤ 5) ∧
  a.key_urls.length ≤ 5 ∧
  a.key_urls.Pairwise (fun u v => domain u ≠ domain v)

/-- One per-argument entry of the verify-all report, following the results
array type of verifyAllArguments in frontend/src/api.ts. -/
structure VerifyOutcomeEntry where
  argument_id : Nat
  title : String
  validity_score : Option Int
  status : String
  error : Option String
  deriving DecidableEq, Repr

/-- The aggregate verify-all report, following the return type of
verifyAllArguments in frontend/src/api.ts. -/
structure VerifyAllReport where
  total_arguments : Nat
  verified : Nat
  failed : Nat
  results : List VerifyOutcomeEntry
  deriving DecidableEq, Repr

/-- Modelled from the spec: the report entry for one argument, from its
verification outcome. -/
def verifyEntry (a : Argument) (outcome : Except String ValidityVerdict) :
    VerifyOutcomeEntry :=
  match outcome with
  | .ok v =>
    { argument_id := a.id
      title := a.title
      validity_score := some v.validity_score
      status := "verified"
      error := none }
  | .error msg =>
    { argument_id := a.id
      title := a.title
      validity_score := none
      status := "failed"
      error := some msg }

/-- Modelled from the spec: a successful verification writes the verdict
into the row, a failed one leaves the prior record untouched. -/
def applyOutcome (checkedAt : Nat) (a : Argument) (outcome : Except String ValidityVerdict) :
    Argument :=
  match outcome with
  | .ok v => updateValidityRecord a v checkedAt
  | .error _ => a

/-- Whether a verification outcome is a failure. -/
def isFailureOutcome (outcome : Except String ValidityVerdict) : Bool :=
  match outcome with
  | .ok _ => false
  | .error _ => true

/-- Modelled from the spec: the bulk verification orchestrator behind the
verify-all endpoint (backend code not in the source tree).  Each argument is
verified independently; the outcomes list carries the per-argument result of
the Fact-Checker, in input order.  The report aggregates counts and
per-argument entries, and the updated rows are returned alongside. -/
def verifyAllArguments (args : List Argument)
    (outcomes : List (Except String ValidityVerdict)) (checkedAt : Nat) :
    VerifyAllReport × List Argument :=
  let results := List.zipWith verifyEntry args outcomes
  ({ total_arguments := args.length
     verified := results.countP (fun e => e.status == "verified")
     failed := results.countP (fun e => e.status == "failed")
     results := results },
   List.zipWith (applyOutcome checkedAt) args outcomes)

/-- Modelled from the spec: the display order behind the verified-arguments
endpoint, validity_score descending with nulls last, ties broken by earlier
created_at first. -/
def validityLe (a b : Argument) : Bool :=
  match a.validity_score, b.validity_score with
  | some x, some y =>
    if x = y then decide (a.created_at ≤ b.created_at) else decide (y < x)
  | some _, none => true
  | none, some _ => false
  | none, none => decide (a.created_at ≤ b.created_at)

/-- Modelled from the spec: arguments surfaced for display, sorted by the
display order (backend code not in the source tree). -/
def getArgumentsSortedByValidity (args : List Argument) : List Argument :=
  args.insertionSort (fun a b => validityLe a b = true)

/-- The order the spec states for surfaced arguments: a comes before b when
b is unverified, or both are verified and a scores strictly higher, or they
tie and a was created no later, or both are unverified and a was created no
later. -/
def displayOrder (a b : Argument) : Prop :=
  (∃ x y, a.validity_score = some x ∧ b.validity_score = some y ∧
    (y < x ∨ (x = y ∧ a.created_at ≤ b.created_at))) ∨
  (a.validity_score ≠ none ∧ b.validity_score = none) ∨
  (a.validity_score = none ∧ b.validity_score = none ∧ a.created_at ≤ b.created_at)

/-- An argument match row, following ArgumentMatch of frontend/src/api.ts. -/
structure ArgumentMatch where
  pro_id : Nat
  con_id : Nat
  reason : Option String
  deriving DecidableEq, Repr

/-- Modelled from the spec: the Argument Matcher over the pro and con
arguments of one topic (backend code not in the source tree).  The proposed
pairs come from the Reasoning Client; the matcher returns the empty sequence
when one side is empty, and keeps only pairs whose ids name an argument of
each given side. -/
def matchArguments (proArguments conArguments : List Argument)
    (proposed : List ArgumentMatch) : List ArgumentMatch :=
  if proArguments.isEmpty || conArguments.isEmpty then []
  else
    proposed.filter (fun m =>
      proArguments.any (fun a => a.id == m.pro_id) &&
      conArguments.any (fun a => a.id == m.con_id))

/-- Stored matches per topic id. -/
abbrev MatchStore : Type := List (Nat × List ArgumentMatch)

/-- Modelled from the spec: replaceMatches of the storage collaborator, with
replace-all semantics for the topic. -/
def replaceMatches (store : MatchStore) (topicId : Nat)
    (newMatches : List ArgumentMatch) : MatchStore :=
  (topicId, newMatches) :: List.filter (fun p => p.1 != topicId) store

/-- The matches currently stored for a topic. -/
def getMatches (store : MatchStore) (topicId : Nat) : List ArgumentMatch :=
  ((List.find? (fun p => p.1 == topicId) store).map Prod.snd).getD []

/-- The synthesis payload, following SummaryResponse of
frontend/src/api.ts. -/
structure SummaryResponse where
  overall_summary : String
  consensus_view : String
  timeline_view : List TimelineItem
  deriving DecidableEq, Repr

/-- Outcome of a synthesis request: either the well-defined insufficient
data result or a produced summary. -/
inductive SynthesisResult where
  | insufficientData
  | synthesized (summary : SummaryResponse)
  deriving DecidableEq, Repr

/-- Modelled from the spec: the Synthesizer (backend code not in the source
tree).  With no pro argument or no con argument it returns the insufficient
data result without consulting the Reasoning Client; the second component
counts the Reasoning Client calls made. -/
def synthesize (reasoningService : String → List Argument → List Argument → SummaryResponse)
    (question : String) (proArguments conArguments : List Argument) :
    SynthesisResult × Nat :=
  if proArguments.isEmpty || conArguments.isEmpty then (.insufficientData, 0)
  else (.synthesized (reasoningService question proArguments conArguments), 1)

/-- The placeholder text of the Claude Analysis card (frontend/app/page.tsx,
lines 1306 to 1314) when no summary is stored yet. -/
def analysisPlaceholderMessage (proArguments conArguments : List Argument) : String :=
  if proArguments.length = 0 || conArguments.length = 0 then
    "Add at least one pro and one con argument to generate analysis"
  else "Analysis will be generated automatically..."

/-- A concrete non-ok response whose body is the empty JSON string, input of
the handleResponse counterexample. -/
def emptyStringBodyResponse : HttpResponse :=
  { ok := false
    status := 500
    statusText := "Internal Server Error"
    body := some (.str "") }

/-- A concrete non-ok response carrying a string detail, used to instantiate
the handleResponse theorem. -/
def topicNotFoundResponse : HttpResponse :=
  { ok := false
    status := 404
    statusText := "Not Found"
    body := some (.obj [("detail", .str "Topic not found")]) }

/-- A concrete summary payload used by instantiations. -/
def sampleSummary : SummaryResponse :=
  { overall_summary := "s", consensus_view := "c", timeline_view := [] }

/-- A concrete argument row used by instantiations. -/
def sampleArgument : Argument := freshArgument 1 1 .pro "A" "a" none "u" 0

/-- A concrete low verdict used by instantiations. -/
def weakVerdict : ValidityVerdict :=
  { validity_score := 2, reasoning := "weak", key_urls := [], source_count := 0 }

/-- A concrete high verdict used by instantiations. -/
def strongVerdict : ValidityVerdict :=
  { validity_score := 5
    reasoning := "strong"
    key_urls := ["https://a.example"]
    source_count := 3 }

/-- Concrete pro side of a sample topic, used by instantiations. -/
def proSampleArguments : List Argument := [freshArgument 1 1 .pro "A" "a" none "u" 0]

/-- Concrete con side of the sample topic, used by instantiations. -/
def conSampleArguments : List Argument := [freshArgument 2 1 .con "B" "b" none "u" 1]

/-- A first proposed pairing for the sample topic. -/
def sampleMatch1 : ArgumentMatch := { pro_id := 1, con_id := 2, reason := some "rebuts" }

/-- A second proposed pairing for the sample topic. -/
def sampleMatch2 : ArgumentMatch := { pro_id := 1, con_id := 2, reason := none }

/-- Concrete search results, one above and one below the relevance cut. -/
def sampleSources : List EvidenceSource :=
  [{ url := "https://a.example/x", snippet := "s1", relevance := 1 },
    { url := "https://b.example/y", snippet := "s2", relevance := 0 }]

/-- The verdict the scoring stage produces on the concrete search results. -/
def sampleVerdict : ValidityVerdict :=
  { validity_score := 4
    reasoning := "supported"
    key_urls := ["https://a.example/x"]
    source_count := 1 }

/-- Three concrete argument rows of one topic, used by the bulk verify
instantiation. -/
def bulkSampleArguments : List Argument :=
  [freshArgument 11 1 .pro "A" "a" none "u" 0,
    freshArgument 12 1 .pro "B" "b" none "u" 1,
    freshArgument 13 1 .con "C" "c" none "u" 2]

/-!  Theorems.  Helper lemmas come first, then one theorem per documented
claim, each with a closed instantiation where the claim has hypotheses. -/

theorem toDigitsCore_ne_nil (b f n : Nat) (acc : List Char) (h : acc ≠ []) :
    Nat.toDigitsCore b f n acc ≠ [] := by
  induction f generalizing n acc with
  | zero => simpa [Nat.toDigitsCore]
  | succ f ih =>
    simp only [Nat.toDigitsCore]
    split
    · simp
    · exact ih _ _ (by simp)

theorem toDigits_ne_nil (b n : Nat) : Nat.toDigits b n ≠ [] := by
  unfold Nat.toDigits
  simp only [Nat.toDigitsCore]
  split
  · simp
  · exact toDigitsCore_ne_nil _ _ _ _ (by simp)

theorem natRepr_ne_empty (n : Nat) : Nat.repr n ≠ "" := by
  unfold Nat.repr
  intro hcontra
  have h1 : (Nat.toDigits 10 n).asString = "" := hcontra
  have h2 : Nat.toDigits 10 n ≠ [] := toDigits_ne_nil 10 n
  have h3 : Nat.toDigits 10 n = ("" : String).toList := by
    rw [← h1]
    simp [List.asString]
  simp [String.toList] at h3
  exact h2 h3

theorem intToString_ne_empty (n : Int) : toString n ≠ "" := by
  show Int.repr n ≠ ""
  unfold Int.repr
  cases n with
  | ofNat m => exact natRepr_ne_empty m
  | negSucc m =>
    intro hcontra
    have h2 := congrArg String.length hcontra
    rw [String.length_append] at h2
    have h3 : ("-" : String).length = 1 := rfl
    have h4 : ("" : String).length = 0 := rfl
    omega

theorem stringAppend_ne_empty (s t : String) (h : s.length ≠ 0) : s ++ t ≠ "" := by
  intro hcontra
  have h2 := congrArg String.length hcontra
  rw [String.length_append] at h2
  have h3 : ("" : String).length = 0 := rfl
  omega

theorem truthy_toDisplayString_ne_empty (v : JsValue) (h : v.truthy = true) :
    v.toDisplayString ≠ "" := by
  cases v with
  | undefined => simp [JsValue.truthy] at h
  | null => simp [JsValue.truthy] at h
  | bool b =>
    cases b
    · simp [JsValue.truthy] at h
    · simp [JsValue.toDisplayString]
  | num n => exact intToString_ne_empty n
  | str s =>
    simp only [JsValue.truthy, bne_iff_ne, ne_eq, decide_eq_true_eq] at h
    simpa [JsValue.toDisplayString] using h
  | obj fields => simp [JsValue.toDisplayString]

theorem jsOr_truthy (a b : JsValue) (hb : b.truthy = true) : (jsOr a b).truthy = true := by
  unfold jsOr
  split
  · assumption
  · exact hb

theorem errorMessageOf_ne_empty (detail : JsValue) (status : Nat)
    (h : detail ≠ .str "") : errorMessageOf detail status ≠ "" := by
  have hfb : (JsValue.str ("HTTP error! status: " ++ toString status)).truthy = true := by
    simp only [JsValue.truthy, bne_iff_ne, ne_eq, decide_eq_true_eq]
    exact stringAppend_ne_empty _ _ (by decide)
  cases detail with
  | str s =>
    simp only [errorMessageOf]
    intro hs
    exact h (by rw [hs])
  | undefined =>
    simp only [errorMessageOf]
    exact truthy_toDisplayString_ne_empty _ (jsOr_truthy _ _ (jsOr_truthy _ _ hfb))
  | null =>
    simp only [errorMessageOf]
    exact truthy_toDisplayString_ne_empty _ (jsOr_truthy _ _ (jsOr_truthy _ _ hfb))
  | bool b =>
    simp only [errorMessageOf]
    exact truthy_toDisplayString_ne_empty _ (jsOr_truthy _ _ (jsOr_truthy _ _ hfb))
  | num n =>
    simp only [errorMessageOf]
    exact truthy_toDisplayString_ne_empty _ (jsOr_truthy _ _ (jsOr_truthy _ _ hfb))
  | obj fields =>
    simp only [errorMessageOf]
    exact truthy_toDisplayString_ne_empty _ (jsOr_truthy _ _ (jsOr_truthy _ _ hfb))

theorem handleResponse_error_shape (r : HttpResponse) (hok : r.ok = false)
    (h1 : r.body ≠ some .null) (h2 : r.body ≠ some .undefined) :
    handleResponse r = .error (.apiError
      { message := errorMessageOf (extractedDetail r) r.status
        status := r.status
        detail := extractedDetail r }) := by
  unfold handleResponse extractedDetail
  rw [hok]
  simp only [Bool.false_eq_true, if_false]
  cases hb : r.body with
  | none => simp [JsValue.getProp]
  | some v =>
    cases v with
    | null => exact absurd hb h1
    | undefined => exact absurd hb h2
    | bool b => simp [JsValue.getProp]
    | num n => simp [JsValue.getProp]
    | str s => simp [JsValue.getProp]
    | obj fields => simp [JsValue.getProp]

/-- C9.  Amended: handleResponse throws whenever the HTTP response is not
ok, and on an ok response whose body is valid JSON it returns the parsed
body (an ok response with an invalid JSON body instead fails with the
rejection of response.json).  When it throws on a non-ok response whose
parsed body is not JSON null, the thrown error carries the response status,
and its message is non-empty unless the extracted detail is the empty
string. -/
theorem handleResponse_checked (r : HttpResponse) :
    (r.ok = true → ∀ v, r.body = some v → handleResponse r = .ok v) ∧
    (r.ok = true → r.body = none → handleResponse r = .error .jsonParseError) ∧
    (r.ok = false → ∀ v, handleResponse r ≠ .ok v) ∧
    (r.ok = false → r.body ≠ some .null → r.body ≠ some .undefined →
      handleResponse r = .error (.apiError
        { message := errorMessageOf (extractedDetail r) r.status
          status := r.status
          detail := extractedDetail r }) ∧
      (extractedDetail r ≠ .str "" → errorMessageOf (extractedDetail r) r.status ≠ "")) := by
  refine ⟨?_, ?_, ?_, ?_⟩
  · intro hok v hv
    simp [handleResponse, hok, hv]
  · intro hok hv
    simp [handleResponse, hok, hv]
  · intro hok v
    unfold handleResponse
    rw [hok]
    simp only [Bool.false_eq_true, if_false]
    split
    · intro hcontra
      exact Except.noConfusion hcontra
    · intro hcontra
      exact Except.noConfusion hcontra
  · intro hok h1 h2
    exact ⟨handleResponse_error_shape r hok h1 h2,
      fun hd => errorMessageOf_ne_empty _ _ hd⟩

/-- C9 counterexample: a non-ok response whose body is the JSON string
consisting of the empty string makes handleResponse throw an error whose
message is empty, refuting the claim that the thrown message is always a
non-empty string. -/
theorem handleResponse_empty_message_counterexample :
    handleResponse emptyStringBodyResponse =
      .error (.apiError { message := "", status := 500, detail := .str "" }) := by
  rfl

/-- C9 witness: the amended theorem instantiated at a concrete 404 response
with a string detail. -/
theorem handleResponse_checked_witness :
    handleResponse topicNotFoundResponse = .error (.apiError
      { message := "Topic not found", status := 404, detail := .str "Topic not found" }) ∧
    (JsValue.str "Topic not found" ≠ .str "" → "Topic not found" ≠ "") :=
  (handleResponse_checked topicNotFoundResponse).2.2.2 rfl
    (by simp [topicNotFoundResponse]) (by simp [topicNotFoundResponse])

theorem jsVoteCount_some (n : Int) : jsVoteCount (some n) = n := by
  by_cases h : n = 0
  · simp [jsVoteCount, h]
  · simp [jsVoteCount, h]

theorem applyOptimistic_id (voteType : VoteType) (a : Argument) :
    (applyOptimistic voteType a).id = a.id := by
  cases voteType <;> rfl

theorem applyRevert_applyOptimistic_id (voteType : VoteType) (a : Argument) :
    (applyRevert voteType (applyOptimistic voteType a)).id = a.id := by
  cases voteType <;> rfl

theorem applyRevert_applyOptimistic_displayed (voteType : VoteType) (a : Argument) :
    displayedVotes (applyRevert voteType (applyOptimistic voteType a)) =
      displayedVotes a := by
  cases voteType <;>
    (simp only [applyOptimistic, applyRevert, displayedVotes, jsVoteCount_some]; omega)

theorem updateFirstById_any (l : List Argument) (argumentId n : Nat)
    (f : Argument → Argument) (hf : ∀ a, (f a).id = a.id) :
    (updateFirstById l argumentId f).any (fun a => a.id == n) =
      l.any (fun a => a.id == n) := by
  induction l with
  | nil => rfl
  | cons a rest ih =>
    simp only [updateFirstById]
    by_cases h : a.id = argumentId
    · rw [if_pos h]
      simp [List.any_cons, hf]
    · rw [if_neg h]
      simp [List.any_cons, ih]

theorem updateFirstById_comp (l : List Argument) (argumentId : Nat)
    (f g : Argument → Argument) (hf : ∀ a, (f a).id = a.id) :
    updateFirstById (updateFirstById l argumentId f) argumentId g =
      updateFirstById l argumentId (fun a => g (f a)) := by
  induction l with
  | nil => rfl
  | cons a rest ih =>
    by_cases h : a.id = argumentId
    · have hfa : (f a).id = argumentId := by rw [hf a]; exact h
      simp [updateFirstById, h, hfa]
    · simp [updateFirstById, h, ih]

theorem updateFirstById_map_displayed (l : List Argument) (argumentId : Nat)
    (h : Argument → Argument)
    (hh : ∀ a, (h a).id = a.id ∧ displayedVotes (h a) = displayedVotes a) :
    (updateFirstById l argumentId h).map (fun a => (a.id, displayedVotes a)) =
      l.map (fun a => (a.id, displayedVotes a)) := by
  induction l with
  | nil => rfl
  | cons a rest ih =>
    simp only [updateFirstById]
    by_cases hcase : a.id = argumentId
    · rw [if_pos hcase]
      simp [(hh a).1, (hh a).2]
    · rw [if_neg hcase]
      simp [ih]

theorem updateVoteState_pos (t : TopicDetail) (argumentId : Nat)
    (f : Argument → Argument)
    (hp : t.pro_arguments.any (fun a => a.id == argumentId) = true) :
    updateVoteState t argumentId f =
      { t with pro_arguments := updateFirstById t.pro_arguments argumentId f } := by
  unfold updateVoteState
  rw [if_pos hp]

theorem updateVoteState_neg (t : TopicDetail) (argumentId : Nat)
    (f : Argument → Argument)
    (hp : ¬ t.pro_arguments.any (fun a => a.id == argumentId) = true) :
    updateVoteState t argumentId f =
      { t with con_arguments := updateFirstById t.con_arguments argumentId f } := by
  unfold updateVoteState
  rw [if_neg hp]

/-- C10: when a vote call fails, the catch branch of handleVote undoes the
optimistic update, so every argument of the topic, the voted one included,
shows the same vote count as before the attempt, and no other argument is
modified. -/
theorem vote_failure_reverts_display (t : TopicDetail) (argumentId : Nat)
    (voteType : VoteType) :
    (handleVoteFailure t argumentId voteType).pro_arguments.map
        (fun a => (a.id, displayedVotes a)) =
      t.pro_arguments.map (fun a => (a.id, displayedVotes a)) ∧
    (handleVoteFailure t argumentId voteType).con_arguments.map
        (fun a => (a.id, displayedVotes a)) =
      t.con_arguments.map (fun a => (a.id, displayedVotes a)) := by
  have hrev : ∀ a : Argument,
      (applyRevert voteType (applyOptimistic voteType a)).id = a.id ∧
      displayedVotes (applyRevert voteType (applyOptimistic voteType a)) =
        displayedVotes a :=
    fun a => ⟨applyRevert_applyOptimistic_id voteType a,
      applyRevert_applyOptimistic_displayed voteType a⟩
  unfold handleVoteFailure
  by_cases hp : t.pro_arguments.any (fun a => a.id == argumentId) = true
  · have hp2 : (updateFirstById t.pro_arguments argumentId
        (applyOptimistic voteType)).any (fun a => a.id == argumentId) = true := by
      rw [updateFirstById_any _ _ _ _ (applyOptimistic_id voteType)]
      exact hp
    rw [updateVoteState_pos t argumentId (applyOptimistic voteType) hp]
    rw [updateVoteState_pos
      { t with pro_arguments :=
          updateFirstById t.pro_arguments argumentId (applyOptimistic voteType) }
      argumentId (applyRevert voteType) hp2]
    refine ⟨?_, rfl⟩
    show (updateFirstById
        (updateFirstById t.pro_arguments argumentId (applyOptimistic voteType))
        argumentId (applyRevert voteType)).map (fun a => (a.id, displayedVotes a)) =
      t.pro_arguments.map (fun a => (a.id, displayedVotes a))
    rw [updateFirstById_comp _ _ _ _ (applyOptimistic_id voteType)]
    exact updateFirstById_map_displayed _ _ _ hrev
  · rw [updateVoteState_neg t argumentId (applyOptimistic voteType) hp]
    rw [updateVoteState_neg
      { t with con_arguments :=
          updateFirstById t.con_arguments argumentId (applyOptimistic voteType) }
      argumentId (applyRevert voteType) hp]
    refine ⟨rfl, ?_⟩
    show (updateFirstById
        (updateFirstById t.con_arguments argumentId (applyOptimistic voteType))
        argumentId (applyRevert voteType)).map (fun a => (a.id, displayedVotes a)) =
      t.con_arguments.map (fun a => (a.id, displayedVotes a))
    rw [updateFirstById_comp _ _ _ _ (applyOptimistic_id voteType)]
    exact updateFirstById_map_displayed _ _ _ hrev

/-- C2: whenever the relevance filter rejects a submission, the argument
store is unchanged (no Argument row is created), the error surfaces the
filter reasoning, and the reasoning string the submitter sees in the
rejection modal is non-empty, the fixed fallback covering an absent or empty
backend reasoning. -/
theorem relevance_rejection_no_persist (store : List Argument)
    (verdict : RelevanceVerdict) (a : Argument)
    (hrej : verdict.accepted = false) :
    handleAddArgumentServer store verdict a = (store, .error verdict.reasoning) ∧
    rejectionReasoningShown (some verdict.reasoning) ≠ "" ∧
    rejectionReasoningShown none ≠ "" := by
  refine ⟨?_, ?_, ?_⟩
  · simp [handleAddArgumentServer, hrej]
  · by_cases he : verdict.reasoning = ""
    · rw [he]
      decide
    · show (if verdict.reasoning = "" then
          "The argument contains no verifiable factual claims related to the debate topic."
        else verdict.reasoning) ≠ ""
      rw [if_neg he]
      exact he
  · decide

/-- C2 witness: a concrete rejected submission against a one-row store. -/
theorem relevance_rejection_no_persist_witness :
    handleAddArgumentServer [freshArgument 1 1 .pro "A" "a" none "u" 0]
        { accepted := false, reasoning := "off topic" }
        (freshArgument 2 1 .con "B" "b" none "u" 1) =
      ([freshArgument 1 1 .pro "A" "a" none "u" 0], .error "off topic") ∧
    rejectionReasoningShown (some "off topic") ≠ "" ∧
    rejectionReasoningShown none ≠ "" :=
  relevance_rejection_no_persist [freshArgument 1 1 .pro "A" "a" none "u" 0]
    { accepted := false, reasoning := "off topic" }
    (freshArgument 2 1 .con "B" "b" none "u" 1) rfl

theorem applyVoteSequence_count (v : Int) (ops : List VoteType) :
    applyVoteSequence v ops =
      v + (ops.count .upvote : Int) - (ops.count .downvote : Int) := by
  induction ops generalizing v with
  | nil => simp [applyVoteSequence]
  | cons op rest ih =>
    cases op with
    | upvote =>
      show applyVoteSequence (v + 1) rest = _
      rw [ih]
      simp [List.count_cons]
      omega
    | downvote =>
      show applyVoteSequence (v - 1) rest = _
      rw [ih]
      simp [List.count_cons]
      omega

/-- C3: on a fresh counter the sequence upvote, upvote, downvote ends at 1;
in general a serialized sequence of atomic adds lands at the initial value
plus the number of upvotes minus the number of downvotes, and any
reordering, hence any interleaving of the atomic adds, gives the same final
counter. -/
theorem vote_sequence_counter (v : Int) (ops1 ops2 : List VoteType)
    (hperm : List.Perm ops1 ops2) :
    applyVoteSequence 0 [.upvote, .upvote, .downvote] = 1 ∧
    applyVoteSequence v ops1 =
      v + (ops1.count .upvote : Int) - (ops1.count .downvote : Int) ∧
    applyVoteSequence v ops1 = applyVoteSequence v ops2 := by
  refine ⟨by decide, applyVoteSequence_count v ops1, ?_⟩
  rw [applyVoteSequence_count v ops1, applyVoteSequence_count v ops2,
    hperm.count_eq .upvote, hperm.count_eq .downvote]

/-- C3 witness: the scenario sequence and one of its interleavings. -/
theorem vote_sequence_counter_witness :
    applyVoteSequence 0 [.upvote, .upvote, .downvote] = 1 ∧
    applyVoteSequence 0 [.upvote, .downvote, .upvote] =
      0 + (([VoteType.upvote, .downvote, .upvote].count .upvote : Nat) : Int) -
        (([VoteType.upvote, .downvote, .upvote].count .downvote : Nat) : Int) ∧
    applyVoteSequence 0 [.upvote, .downvote, .upvote] =
      applyVoteSequence 0 [.upvote, .upvote, .downvote] :=
  vote_sequence_counter 0 [.upvote, .downvote, .upvote]
    [.upvote, .upvote, .downvote] (by decide)

/-- C4: with no pro argument or no con argument the synthesizer returns the
insufficient data result and makes zero Reasoning Client calls, and the
analysis card of the page shows the insufficient data placeholder. -/
theorem synthesize_insufficient_data
    (reasoningService : String → List Argument → List Argument → SummaryResponse)
    (question : String) (proArguments conArguments : List Argument)
    (hmissing : proArguments = [] ∨ conArguments = []) :
    synthesize reasoningService question proArguments conArguments =
      (.insufficientData, 0) ∧
    analysisPlaceholderMessage proArguments conArguments =
      "Add at least one pro and one con argument to generate analysis" := by
  have hempty : (proArguments.isEmpty || conArguments.isEmpty) = true := by
    rcases hmissing with h | h <;> simp [h]
  have hlen : (proArguments.length = 0 || conArguments.length = 0) = true := by
    rcases hmissing with h | h <;> simp [h]
  constructor
  · unfold synthesize
    rw [if_pos hempty]
  · unfold analysisPlaceholderMessage
    rw [if_pos]
    simpa using hlen

/-- C4 witness: a topic with one con argument and no pro argument. -/
theorem synthesize_insufficient_data_witness :
    synthesize (fun _ _ _ => sampleSummary) "Q" []
      [freshArgument 3 1 .con "B" "b" none "u" 1] = (.insufficientData, 0) ∧
    analysisPlaceholderMessage [] [freshArgument 3 1 .con "B" "b" none "u" 1] =
      "Add at least one pro and one con argument to generate analysis" :=
  synthesize_insufficient_data _ "Q" [] [freshArgument 3 1 .con "B" "b" none "u" 1]
    (Or.inl rfl)

/-- C8: a second verification fully replaces the validity record written by
the first, leaving no merged or partial state, and since each verification
stamps validity_checked_at with its call time, the stamp strictly increases
across successive verifications. -/
theorem reverify_replaces_record (a : Argument) (v1 v2 : ValidityVerdict)
    (t1 t2 : Nat) (hlt : t1 < t2) :
    updateValidityRecord (updateValidityRecord a v1 t1) v2 t2 =
      updateValidityRecord a v2 t2 ∧
    (updateValidityRecord a v1 t1).validity_checked_at = some t1 ∧
    (updateValidityRecord (updateValidityRecord a v1 t1) v2 t2).validity_checked_at =
      some t2 ∧
    (∀ s1 s2,
      (updateValidityRecord a v1 t1).validity_checked_at = some s1 →
      (updateValidityRecord (updateValidityRecord a v1 t1) v2 t2).validity_checked_at =
        some s2 →
      s1 < s2) := by
  refine ⟨rfl, rfl, rfl, ?_⟩
  intro s1 s2 h1 h2
  have h1x : (some t1 : Option Nat) = some s1 := h1
  have h2x : (some t2 : Option Nat) = some s2 := h2
  have e1 := Option.some.inj h1x
  have e2 := Option.some.inj h2x
  omega

/-- C8 witness: two successive verifications of a concrete argument at times
1 and 2. -/
theorem reverify_replaces_record_witness :
    updateValidityRecord (updateValidityRecord sampleArgument weakVerdict 1)
        strongVerdict 2 =
      updateValidityRecord sampleArgument strongVerdict 2 ∧
    (updateValidityRecord sampleArgument weakVerdict 1).validity_checked_at = some 1 ∧
    (updateValidityRecord (updateValidityRecord sampleArgument weakVerdict 1)
        strongVerdict 2).validity_checked_at = some 2 ∧
    (1 : Nat) < 2 := by
  have h := reverify_replaces_record sampleArgument weakVerdict strongVerdict 1 2
    (by decide)
  exact ⟨h.1, h.2.1, h.2.2.1, h.2.2.2 1 2 h.2.1 h.2.2.1⟩

theorem getMatches_replaceMatches (store : MatchStore) (topicId : Nat)
    (newMatches : List ArgumentMatch) :
    getMatches (replaceMatches store topicId newMatches) topicId = newMatches := by
  unfold getMatches replaceMatches
  rw [List.find?_cons_of_pos _ (by simp)]
  rfl

/-- C7: every match the matcher returns for a topic pairs a pro argument and
a con argument of that topic, and a second run stored through replaceMatches
replaces the first result instead of appending to it. -/
theorem match_same_topic_and_replace (store : MatchStore) (topicId : Nat)
    (proArguments conArguments : List Argument)
    (proposed1 proposed2 : List ArgumentMatch)
    (hpro : ∀ a ∈ proArguments, a.topic_id = topicId ∧ a.side = Side.pro)
    (hcon : ∀ a ∈ conArguments, a.topic_id = topicId ∧ a.side = Side.con) :
    (∀ m ∈ matchArguments proArguments conArguments proposed1,
      (∃ a ∈ proArguments, a.id = m.pro_id ∧ a.topic_id = topicId ∧
        a.side = Side.pro) ∧
      (∃ b ∈ conArguments, b.id = m.con_id ∧ b.topic_id = topicId ∧
        b.side = Side.con)) ∧
    getMatches
        (replaceMatches
          (replaceMatches store topicId
            (matchArguments proArguments conArguments proposed1))
          topicId (matchArguments proArguments conArguments proposed2))
        topicId =
      matchArguments proArguments conArguments proposed2 := by
  constructor
  · intro m hm
    unfold matchArguments at hm
    by_cases hempty : (proArguments.isEmpty || conArguments.isEmpty) = true
    · rw [if_pos hempty] at hm
      exact absurd hm (List.not_mem_nil m)
    · rw [if_neg hempty] at hm
      have hf := List.mem_filter.mp hm
      have hpred : proArguments.any (fun a => a.id == m.pro_id) = true ∧
          conArguments.any (fun a => a.id == m.con_id) = true := by
        have h2 := hf.2
        rw [Bool.and_eq_true] at h2
        exact h2
      have hproid := List.any_eq_true.mp hpred.1
      have hconid := List.any_eq_true.mp hpred.2
      obtain ⟨a, ha, haid⟩ := hproid
      obtain ⟨b, hb, hbid⟩ := hconid
      exact ⟨⟨a, ha, beq_iff_eq.mp haid, (hpro a ha).1, (hpro a ha).2⟩,
        ⟨b, hb, beq_iff_eq.mp hbid, (hcon b hb).1, (hcon b hb).2⟩⟩
  · exact getMatches_replaceMatches _ _ _

/-- C7 witness: the sample topic, two proposed pairings, run twice against
the empty store. -/
theorem match_same_topic_and_replace_witness :
    getMatches
        (replaceMatches
          (replaceMatches ([] : MatchStore) 1
            (matchArguments proSampleArguments conSampleArguments [sampleMatch1]))
          1 (matchArguments proSampleArguments conSampleArguments [sampleMatch2]))
        1 =
      matchArguments proSampleArguments conSampleArguments [sampleMatch2] :=
  (match_same_topic_and_replace ([] : MatchStore) 1 proSampleArguments
    conSampleArguments [sampleMatch1] [sampleMatch2] (by decide) (by decide)).2

theorem validityLe_eq_nn {a b : Argument} (ha : a.validity_score = none)
    (hb : b.validity_score = none) :
    validityLe a b = decide (a.created_at ≤ b.created_at) := by
  unfold validityLe
  rw [ha, hb]

theorem validityLe_eq_sn {a b : Argument} {x : Int} (ha : a.validity_score = some x)
    (hb : b.validity_score = none) : validityLe a b = true := by
  unfold validityLe
  rw [ha, hb]

theorem validityLe_eq_ns {a b : Argument} {y : Int} (ha : a.validity_score = none)
    (hb : b.validity_score = some y) : validityLe a b = false := by
  unfold validityLe
  rw [ha, hb]

theorem validityLe_eq_ss {a b : Argument} {x y : Int} (ha : a.validity_score = some x)
    (hb : b.validity_score = some y) :
    validityLe a b =
      if x = y then decide (a.created_at ≤ b.created_at) else decide (y < x) := by
  unfold validityLe
  rw [ha, hb]

theorem validityLe_total (a b : Argument) :
    validityLe a b = true ∨ validityLe b a = true := by
  cases ha : a.validity_score with
  | none =>
    cases hb : b.validity_score with
    | none =>
      rw [validityLe_eq_nn ha hb, validityLe_eq_nn hb ha]
      simp only [decide_eq_true_eq]
      omega
    | some y =>
      right
      rw [validityLe_eq_sn hb ha]
  | some x =>
    cases hb : b.validity_score with
    | none =>
      left
      rw [validityLe_eq_sn ha hb]
    | some y =>
      rw [validityLe_eq_ss ha hb, validityLe_eq_ss hb ha]
      by_cases hxy : x = y
      · rw [if_pos hxy, if_pos hxy.symm]
        simp only [decide_eq_true_eq]
        omega
      · rw [if_neg hxy, if_neg (fun h => hxy h.symm)]
        simp only [decide_eq_true_eq]
        omega

theorem validityLe_trans (a b c : Argument) (hab : validityLe a b = true)
    (hbc : validityLe b c = true) : validityLe a c = true := by
  cases ha : a.validity_score with
  | none =>
    cases hb : b.validity_score with
    | some y =>
      rw [validityLe_eq_ns ha hb] at hab
      simp at hab
    | none =>
      cases hc : c.validity_score with
      | some z =>
        rw [validityLe_eq_ns hb hc] at hbc
        simp at hbc
      | none =>
        rw [validityLe_eq_nn ha hb] at hab
        rw [validityLe_eq_nn hb hc] at hbc
        rw [validityLe_eq_nn ha hc]
        simp only [decide_eq_true_eq] at hab hbc ⊢
        omega
  | some x =>
    cases hc : c.validity_score with
    | none => rw [validityLe_eq_sn ha hc]
    | some z =>
      cases hb : b.validity_score with
      | none =>
        rw [validityLe_eq_ns hb hc] at hbc
        simp at hbc
      | some y =>
        rw [validityLe_eq_ss ha hb] at hab
        rw [validityLe_eq_ss hb hc] at hbc
        rw [validityLe_eq_ss ha hc]
        by_cases hxy : x = y <;> by_cases hyz : y = z
        · rw [if_pos hxy] at hab
          rw [if_pos hyz] at hbc
          simp only [decide_eq_true_eq] at hab hbc
          rw [if_pos (hxy.trans hyz)]
          simp only [decide_eq_true_eq]
          omega
        · rw [if_pos hxy] at hab
          rw [if_neg hyz] at hbc
          simp only [decide_eq_true_eq] at hab hbc
          have hxz : ¬ x = z := by omega
          rw [if_neg hxz]
          simp only [decide_eq_true_eq]
          omega
        · rw [if_neg hxy] at hab
          rw [if_pos hyz] at hbc
          simp only [decide_eq_true_eq] at hab hbc
          have hxz : ¬ x = z := by omega
          rw [if_neg hxz]
          simp only [decide_eq_true_eq]
          omega
        · rw [if_neg hxy] at hab
          rw [if_neg hyz] at hbc
          simp only [decide_eq_true_eq] at hab hbc
          have hxz : ¬ x = z := by omega
          rw [if_neg hxz]
          simp only [decide_eq_true_eq]
          omega

theorem validityLe_imp_displayOrder (a b : Argument) (h : validityLe a b = true) :
    displayOrder a b := by
  unfold displayOrder
  cases ha : a.validity_score with
  | none =>
    cases hb : b.validity_score with
    | none =>
      right
      right
      refine ⟨rfl, rfl, ?_⟩
      rw [validityLe_eq_nn ha hb] at h
      simpa using h
    | some y =>
      rw [validityLe_eq_ns ha hb] at h
      simp at h
  | some x =>
    cases hb : b.validity_score with
    | none =>
      right
      left
      exact ⟨by simp, rfl⟩
    | some y =>
      left
      refine ⟨x, y, rfl, rfl, ?_⟩
      rw [validityLe_eq_ss ha hb] at h
      by_cases hxy : x = y
      · right
        rw [if_pos hxy] at h
        simp only [decide_eq_true_eq] at h
        exact ⟨hxy, h⟩
      · left
        rw [if_neg hxy] at h
        simp only [decide_eq_true_eq] at h
        exact h

/-- C6: the surfaced argument list is a permutation of the input, ordered so
that verified arguments come first by descending validity_score, unverified
arguments come last, and ties are broken by earlier created_at first. -/
theorem arguments_sorted_for_display (args : List Argument) :
    List.Perm (getArgumentsSortedByValidity args) args ∧
    List.Pairwise displayOrder (getArgumentsSortedByValidity args) := by
  constructor
  · exact List.perm_insertionSort _ args
  · have hs := @List.sorted_insertionSort Argument (fun a b => validityLe a b = true) _
      ⟨fun a b => validityLe_total a b⟩ ⟨fun a b c => validityLe_trans a b c⟩ args
    exact List.Pairwise.imp (fun h => validityLe_imp_displayOrder _ _ h) hs

theorem collectKeyUrls_spec (domain : String → String)
    (results : List EvidenceSource) :
    (collectKeyUrls domain results).length ≤ 5 ∧
    (collectKeyUrls domain results).Pairwise (fun u v => domain u ≠ domain v) := by
  have aux : ∀ (rs : List EvidenceSource) (acc : List String),
      acc.length ≤ 5 →
      acc.Pairwise (fun u v => domain u ≠ domain v) →
      (List.foldl
        (fun acc s =>
          if acc.length < 5 && acc.all (fun u => domain u != domain s.url) then
            acc ++ [s.url]
          else acc)
        acc rs).length ≤ 5 ∧
      (List.foldl
        (fun acc s =>
          if acc.length < 5 && acc.all (fun u => domain u != domain s.url) then
            acc ++ [s.url]
          else acc)
        acc rs).Pairwise (fun u v => domain u ≠ domain v) := by
    intro rs
    induction rs with
    | nil =>
      intro acc h1 h2
      exact ⟨h1, h2⟩
    | cons s rest ih =>
      intro acc h1 h2
      rw [List.foldl_cons]
      by_cases hcond :
          (acc.length < 5 && acc.all (fun u => domain u != domain s.url)) = true
      · rw [if_pos hcond]
        rw [Bool.and_eq_true] at hcond
        have hlen : acc.length < 5 := by simpa using hcond.1
        have hall : ∀ u ∈ acc, domain u ≠ domain s.url := by
          intro u hu
          have := List.all_eq_true.mp hcond.2 u hu
          simpa using this
        apply ih
        · rw [List.length_append]
          simp only [List.length_singleton]
          omega
        · rw [List.pairwise_append]
          refine ⟨h2, by simp, ?_⟩
          intro u hu v hv
          rw [List.mem_singleton] at hv
          rw [hv]
          exact hall u hu
      · rw [if_neg hcond]
        exact ih acc h1 h2
  exact aux results [] (by simp) (by simp)

theorem scoreVerdict_bounds (domain : String → String) (rawScore : Int)
    (reasoning : String) (searchResults : List EvidenceSource) (v : ValidityVerdict)
    (h : scoreVerdict domain rawScore reasoning searchResults = some v) :
    (1 ≤ v.validity_score ∧ v.validity_score ≤ 5) ∧
    v.key_urls.length ≤ 5 ∧
    v.key_urls.Pairwise (fun u w => domain u ≠ domain w) := by
  simp only [scoreVerdict] at h
  split at h
  · rename_i hc
    rw [Option.some_inj] at h
    subst h
    exact ⟨hc, (collectKeyUrls_spec domain _).1, (collectKeyUrls_spec domain _).2⟩
  · simp at h

/-- C1: the validity record invariant holds for every argument: a fresh row
has a null score and no key urls, and a row updated with any verdict the
scoring stage produced has a score between 1 and 5, at most five key urls,
and key urls with pairwise distinct domains. -/
theorem validity_record_invariant_holds (domain : String → String) :
    (∀ id topicId side title content sources author createdAt,
      validityRecordInvariant domain
        (freshArgument id topicId side title content sources author createdAt)) ∧
    (∀ a rawScore reasoning searchResults v checkedAt,
      scoreVerdict domain rawScore reasoning searchResults = some v →
      validityRecordInvariant domain (updateValidityRecord a v checkedAt)) := by
  constructor
  · intro id topicId side title content sources author createdAt
    refine ⟨?_, ?_, ?_⟩
    · intro s hs
      simp [freshArgument] at hs
    · simp [freshArgument]
    · simp [freshArgument]
  · intro a rawScore reasoning searchResults v checkedAt h
    have hb := scoreVerdict_bounds domain rawScore reasoning searchResults v h
    refine ⟨?_, hb.2.1, hb.2.2⟩
    intro s hs
    have hx : some v.validity_score = some s := hs
    rw [← Option.some_inj.mp hx]
    exact hb.1

/-- C1 witness: the scoring stage on the concrete search results, folded
into a concrete argument row, with the identity domain map. -/
theorem validity_record_invariant_holds_witness :
    scoreVerdict (fun u => u) 4 "supported" sampleSources = some sampleVerdict ∧
    validityRecordInvariant (fun u => u)
      (updateValidityRecord sampleArgument sampleVerdict 42) :=
  ⟨by decide, (validity_record_invariant_holds (fun u => u)).2 sampleArgument 4
    "supported" sampleSources sampleVerdict 42 (by decide)⟩

theorem countP_verifyEntry_verified (args : List Argument)
    (outcomes : List (Except String ValidityVerdict))
    (hlen : args.length = outcomes.length) :
    (List.zipWith verifyEntry args outcomes).countP
        (fun e => e.status == "verified") =
      outcomes.countP (fun o => !(isFailureOutcome o)) := by
  induction args generalizing outcomes with
  | nil =>
    cases outcomes with
    | nil => rfl
    | cons o os => simp at hlen
  | cons a rest ih =>
    cases outcomes with
    | nil => simp at hlen
    | cons o os =>
      simp only [List.zipWith_cons_cons, List.countP_cons]
      rw [ih os (by simpa using hlen)]
      cases o with
      | ok v => simp [verifyEntry, isFailureOutcome]
      | error m => simp [verifyEntry, isFailureOutcome]

theorem countP_verifyEntry_failed (args : List Argument)
    (outcomes : List (Except String ValidityVerdict))
    (hlen : args.length = outcomes.length) :
    (List.zipWith verifyEntry args outcomes).countP
        (fun e => e.status == "failed") =
      outcomes.countP (fun o => isFailureOutcome o) := by
  induction args generalizing outcomes with
  | nil =>
    cases outcomes with
    | nil => rfl
    | cons o os => simp at hlen
  | cons a rest ih =>
    cases outcomes with
    | nil => simp at hlen
    | cons o os =>
      simp only [List.zipWith_cons_cons, List.countP_cons]
      rw [ih os (by simpa using hlen)]
      cases o with
      | ok v => simp [verifyEntry, isFailureOutcome]
      | error m => simp [verifyEntry, isFailureOutcome]

/-- C5: a bulk verification in which exactly one outcome fails reports
verified equal to the number of arguments minus one and failed equal to one;
the failed entry carries the error message, and every other argument gets a
verified entry with its verdict score and its row independently updated with
that verdict. -/
theorem bulk_verify_partial_failure (args : List Argument)
    (pre post : List (Except String ValidityVerdict)) (msg : String)
    (checkedAt : Nat)
    (hlen : args.length = (pre ++ .error msg :: post).length)
    (hpre : ∀ o ∈ pre, isFailureOutcome o = false)
    (hpost : ∀ o ∈ post, isFailureOutcome o = false) :
    (verifyAllArguments args (pre ++ .error msg :: post) checkedAt).1.verified =
      args.length - 1 ∧
    (verifyAllArguments args (pre ++ .error msg :: post) checkedAt).1.failed = 1 ∧
    (∀ a, args[pre.length]? = some a →
      (verifyAllArguments args
          (pre ++ .error msg :: post) checkedAt).1.results[pre.length]? =
        some { argument_id := a.id, title := a.title, validity_score := none, status := "failed", error := some msg }) ∧
    (∀ j a, j ≠ pre.length → args[j]? = some a →
      ∃ v, (pre ++ .error msg :: post)[j]? = some (.ok v) ∧
        (verifyAllArguments args (pre ++ .error msg :: post) checkedAt).1.results[j]? =
          some { argument_id := a.id, title := a.title, validity_score := some v.validity_score, status := "verified", error := none } ∧
        (verifyAllArguments args (pre ++ .error msg :: post) checkedAt).2[j]? =
          some (updateValidityRecord a v checkedAt)) := by
  have hlen2 : args.length = pre.length + (post.length + 1) := by
    rw [hlen]
    simp [List.length_append]
  refine ⟨?_, ?_, ?_, ?_⟩
  · show (List.zipWith verifyEntry args (pre ++ .error msg :: post)).countP
        (fun e => e.status == "verified") = args.length - 1
    rw [countP_verifyEntry_verified args _ hlen]
    rw [List.countP_append, List.countP_cons]
    have hp1 : pre.countP (fun o => !(isFailureOutcome o)) = pre.length :=
      List.countP_eq_length.mpr (by intro o ho; simp [hpre o ho])
    have hp2 : post.countP (fun o => !(isFailureOutcome o)) = post.length :=
      List.countP_eq_length.mpr (by intro o ho; simp [hpost o ho])
    rw [hp1, hp2]
    simp only [isFailureOutcome, Bool.not_true, Bool.false_eq_true, if_false]
    omega
  · show (List.zipWith verifyEntry args (pre ++ .error msg :: post)).countP
        (fun e => e.status == "failed") = 1
    rw [countP_verifyEntry_failed args _ hlen]
    rw [List.countP_append, List.countP_cons]
    have hp1 : pre.countP (fun o => isFailureOutcome o) = 0 :=
      List.countP_eq_zero.mpr (by intro o ho; simp [hpre o ho])
    have hp2 : post.countP (fun o => isFailureOutcome o) = 0 :=
      List.countP_eq_zero.mpr (by intro o ho; simp [hpost o ho])
    rw [hp1, hp2]
    simp [isFailureOutcome]
  · intro a ha
    show (List.zipWith verifyEntry args (pre ++ .error msg :: post))[pre.length]? =
      some { argument_id := a.id, title := a.title, validity_score := none, status := "failed", error := some msg }
    rw [List.getElem?_zipWith, ha,
      List.getElem?_append_right (Nat.le_refl pre.length), Nat.sub_self]
    simp [verifyEntry]
  · intro j a hj hja
    have hjlt : j < args.length := by
      by_contra hc
      rw [List.getElem?_eq_none (by omega)] at hja
      exact Option.noConfusion hja
    have hexists : ∃ v, (pre ++ .error msg :: post)[j]? = some (.ok v) := by
      rcases Nat.lt_or_ge j pre.length with hl | hg
      · have hx : (pre ++ .error msg :: post)[j]? = pre[j]? := by
          rw [List.getElem?_append]
          rw [if_pos hl]
        cases hOP : pre[j]? with
        | none =>
          exfalso
          have := List.getElem?_eq_none_iff.mp hOP
          omega
        | some o =>
          have hmem := List.getElem?_mem hOP
          have hok := hpre o hmem
          cases o with
          | error m => simp [isFailureOutcome] at hok
          | ok v =>
            refine ⟨v, ?_⟩
            rw [hx, hOP]
      · have hx : (pre ++ .error msg :: post)[j]? =
            (Except.error msg :: post)[j - pre.length]? :=
          List.getElem?_append_right hg
        have hsub : j - pre.length = (j - pre.length - 1) + 1 := by omega
        rw [hsub, List.getElem?_cons_succ] at hx
        cases hOP : post[j - pre.length - 1]? with
        | none =>
          exfalso
          have := List.getElem?_eq_none_iff.mp hOP
          omega
        | some o =>
          have hmem := List.getElem?_mem hOP
          have hok := hpost o hmem
          cases o with
          | error m => simp [isFailureOutcome] at hok
          | ok v =>
            refine ⟨v, ?_⟩
            rw [hx, hOP]
    obtain ⟨v, hv⟩ := hexists
    refine ⟨v, hv, ?_, ?_⟩
    · show (List.zipWith verifyEntry args (pre ++ .error msg :: post))[j]? =
        some { argument_id := a.id, title := a.title, validity_score := some v.validity_score, status := "verified", error := none }
      rw [List.getElem?_zipWith, hja, hv]
      simp [verifyEntry]
    · show (List.zipWith (applyOutcome checkedAt) args (pre ++ .error msg :: post))[j]? =
        some (updateValidityRecord a v checkedAt)
      rw [List.getElem?_zipWith, hja, hv]
      simp [applyOutcome]

/-- C5 witness: three arguments, the middle verification forced to fail. -/
theorem bulk_verify_partial_failure_witness :
    (verifyAllArguments bulkSampleArguments
        ([Except.ok weakVerdict] ++ .error "Claude API failure" :: [Except.ok strongVerdict])
        7).1.verified = bulkSampleArguments.length - 1 ∧
    (verifyAllArguments bulkSampleArguments
        ([Except.ok weakVerdict] ++ .error "Claude API failure" :: [Except.ok strongVerdict])
        7).1.failed = 1 ∧
    (verifyAllArguments bulkSampleArguments
        ([Except.ok weakVerdict] ++ .error "Claude API failure" :: [Except.ok strongVerdict])
        7).1.results[1]? =
      some { argument_id := 12, title := "B", validity_score := none, status := "failed", error := some "Claude API failure" } := by
  have h := bulk_verify_partial_failure bulkSampleArguments [Except.ok weakVerdict]
    [Except.ok strongVerdict] "Claude API failure" 7 rfl
    (by intro o ho; rw [List.mem_singleton] at ho; rw [ho]; rfl)
    (by intro o ho; rw [List.mem_singleton] at ho; rw [ho]; rfl)
  exact ⟨h.1, h.2.1, h.2.2.1 (freshArgument 12 1 .pro "B" "b" none "u" 1) rfl⟩

end Debately
